import Mathlib

/-!
# Verification of the LekhokAI retrieval core

Shallow embedding of the retrieval core of the repository:

* `persona_processor.py` — chunking (`chunk_text`), the embedding cache
  (`_get_cache_path`, `_load_from_cache`, `_save_to_cache`) and
  `process_persona`;
* `retrieval_module.py` — `_get_retrieval_params` and
  `find_relevant_chunks` (coarse cosine filter, stable descending sort,
  truncation, optional cross-encoder rerank with graceful degradation);
* `main_agent.py` — session orchestration (`load_character`,
  `generate_story_and_image`).

Python strings are modelled as `List Char` (for slicing) or `String`;
floating-point scores as `ℚ`; external model calls (sentence-transformers
encode, sklearn cosine similarity, the cross-encoder predict) as function
parameters returning `Except Unit _` where the library call can raise.
The file system and the on-disk cache are modelled as explicit maps
threaded through the state-passing embeddings.
-/

namespace LekhokAI

/-! ## Chunker: `PersonaProcessor.chunk_text` (persona_processor.py:95-119)

The Python loop is

    start = 0
    while start < len(text):
        end = start + chunk_size
        chunk = text[start:end]
        chunks.append(chunk)
        if end >= len(text):
            break
        start += (chunk_size - overlap)

The loop need not terminate (nothing validates `chunk_size > overlap`),
so the embedding is fuel-indexed: `none` means the fuel ran out before
the loop exited, and a result for every fuel value means divergence.
`chunk_size - overlap` is Python integer subtraction on non-negative
arguments; when `overlap ≥ chunk_size` the Python stride is `≤ 0` and
`start` never passes `len(text)`, which the truncated `Nat` subtraction
(stride `0`) reproduces observationally: the loop never exits. -/

/-- One Python slice `text[start:end]` for `0 ≤ start ≤ end`. -/
def pySlice (text : List Char) (start stop : Nat) : List Char :=
  (text.drop start).take (stop - start)

/-- The `while start < len(text)` loop of `chunk_text`, fuel-indexed. -/
def chunkLoop (text : List Char) (chunk_size overlap : Nat) :
    Nat → Nat → List (List Char) → Option (List (List Char))
  | 0, _, _ => none
  | fuel + 1, start, chunks =>
    if start < text.length then
      let chunk := pySlice text start (start + chunk_size)
      let chunks1 := chunks ++ [chunk]
      if text.length ≤ start + chunk_size then
        some chunks1
      else
        chunkLoop text chunk_size overlap fuel (start + (chunk_size - overlap)) chunks1
    else
      some chunks

/-- `PersonaProcessor.chunk_text`: `if not text: return []`, then the loop.
`none` = the given fuel was not enough for the loop to exit. -/
def chunk_text (text : List Char) (chunk_size overlap : Nat) (fuel : Nat) :
    Option (List (List Char)) :=
  if text = [] then some [] else chunkLoop text chunk_size overlap fuel 0 []

/-- Reassembling overlapping chunks: every chunk but the last contributes its
first `stride` characters (`stride = chunk_size - overlap`), the last chunk is
kept whole. -/
def reassemble (stride : Nat) : List (List Char) → List Char
  | [] => []
  | [c] => c
  | c :: cs => c.take stride ++ reassemble stride cs

end LekhokAI

namespace LekhokAI

theorem reassemble_cons (stride : Nat) (c : List Char) (cs : List (List Char))
    (h : cs ≠ []) : reassemble stride (c :: cs) = c.take stride ++ reassemble stride cs := by
  cases cs with
  | nil => exact absurd rfl h
  | cons d ds => rfl

/-- Core coverage lemma for the chunk loop: with a strictly positive stride and
fuel at least the remaining length, the loop exits and the emitted suffix of
chunks reassembles to `text.drop start`. -/
theorem chunkLoop_coverage (text : List Char) (chunk_size overlap : Nat)
    (hov : overlap < chunk_size) :
    ∀ fuel start acc, start < text.length → text.length - start ≤ fuel →
      ∃ tail, chunkLoop text chunk_size overlap fuel start acc = some (acc ++ tail) ∧
        reassemble (chunk_size - overlap) tail = text.drop start ∧ tail ≠ [] := by
  intro fuel
  induction fuel with
  | zero =>
    intro start acc hs hf
    omega
  | succ n ih =>
    intro start acc hs hf
    by_cases hend : text.length ≤ start + chunk_size
    · refine ⟨[pySlice text start (start + chunk_size)], ?_, ?_, by simp⟩
      · simp [chunkLoop, hs, hend]
      · show pySlice text start (start + chunk_size) = text.drop start
        unfold pySlice
        have : start + chunk_size - start = chunk_size := by omega
        rw [this]
        exact List.take_of_length_le (by simpa using Nat.sub_le_iff_le_add'.mpr hend)
    · push_neg at hend
      have hstride : 1 ≤ chunk_size - overlap := by omega
      have hs' : start + (chunk_size - overlap) < text.length := by omega
      have hf' : text.length - (start + (chunk_size - overlap)) ≤ n := by omega
      obtain ⟨tail, hloop, hre, hne⟩ :=
        ih (start + (chunk_size - overlap)) (acc ++ [pySlice text start (start + chunk_size)]) hs' hf'
      refine ⟨pySlice text start (start + chunk_size) :: tail, ?_, ?_, by simp⟩
      · have : chunkLoop text chunk_size overlap (n + 1) start acc =
            chunkLoop text chunk_size overlap n (start + (chunk_size - overlap))
              (acc ++ [pySlice text start (start + chunk_size)]) := by
          simp [chunkLoop, hs, Nat.not_le.mpr hend]
        rw [this, hloop]
        simp
      · rw [reassemble_cons _ _ _ hne, hre]
        unfold pySlice
        have h1 : start + chunk_size - start = chunk_size := by omega
        rw [h1, List.take_take, Nat.min_eq_left (Nat.sub_le _ _)]
        rw [← List.drop_drop]
        exact List.take_append_drop _ _

end LekhokAI

namespace LekhokAI

/-- Helper for the divergence of `chunk_text` on `overlap = chunk_size`:
with text `"ab"`, `chunk_size = 1`, `overlap = 1` the stride is `0`, so the
loop re-reads offset `0` forever and no amount of fuel makes it exit. -/
theorem chunkLoop_ab_one_one_stuck :
    ∀ fuel acc, chunkLoop ['a', 'b'] 1 1 fuel 0 acc = none := by
  intro fuel
  induction fuel with
  | zero => intro acc; rfl
  | succ n ih =>
    intro acc
    show chunkLoop ['a', 'b'] 1 1 n (0 + (1 - 1)) _ = none
    exact ih _

end LekhokAI

namespace LekhokAI

/-- C2 (code_bug evidence): `chunk_text` performs no parameter validation.
On the precondition-violating call `chunk_text("ab", chunk_size=1, overlap=1)`
(`overlap ≥ size`) the Python loop never terminates — for every fuel bound the
fuel-indexed embedding reports that the loop has not exited — so the call
neither fails fast with an error nor returns a result, contradicting the
spec's fail-fast requirement. -/
theorem chunk_text_invalid_params_diverges :
    ∀ fuel, chunk_text ['a', 'b'] 1 1 fuel = none := by
  intro fuel
  show chunkLoop ['a', 'b'] 1 1 fuel 0 [] = none
  exact chunkLoop_ab_one_one_stuck fuel []

/-- C3: for `chunk_size > overlap ≥ 0` the chunking loop terminates (fuel
`text.length + 1` suffices), the emitted chunks reassemble — taking the first
`chunk_size - overlap` characters of every chunk but the last and all of the
last — to exactly the original text, and empty input yields the empty chunk
list. -/
theorem chunk_text_terminates_and_covers (text : List Char) (chunk_size overlap : Nat)
    (hov : overlap < chunk_size) :
    ∃ cs, chunk_text text chunk_size overlap (text.length + 1) = some cs ∧
      reassemble (chunk_size - overlap) cs = text ∧ (text = [] → cs = []) := by
  by_cases hnil : text = []
  · refine ⟨[], ?_, ?_, fun _ => rfl⟩
    · simp [chunk_text, hnil]
    · simp [reassemble, hnil]
  · have hlen : 0 < text.length := List.length_pos.mpr hnil
    obtain ⟨tail, hloop, hre, hne⟩ :=
      chunkLoop_coverage text chunk_size overlap hov (text.length + 1) 0 [] hlen (by omega)
    refine ⟨tail, ?_, by simpa using hre, fun h => absurd h hnil⟩
    simp [chunk_text, hnil]
    simpa using hloop

/-- Witness for C3 at `text = "abc"`, `chunk_size = 2`, `overlap = 1`. -/
theorem chunk_text_terminates_and_covers_witness :
    (1 : Nat) < 2 ∧
      ∃ cs, chunk_text ['a', 'b', 'c'] 2 1 4 = some cs ∧
        reassemble 1 cs = ['a', 'b', 'c'] ∧ (['a', 'b', 'c'] = ([] : List Char) → cs = []) :=
  ⟨by decide, chunk_text_terminates_and_covers ['a', 'b', 'c'] 2 1 (by decide)⟩

end LekhokAI

namespace LekhokAI

/-! ## Retrieval Engine: `RetrievalModule` (retrieval_module.py)

Embeddings are `List ℚ`; a document chunk embedding slot may be Python
`None` (`Option`).  `sklearn`'s `cosine_similarity` and the cross-encoder's
`predict` are external library calls that may raise, modelled as function
parameters returning `Except Unit _`.  Python `list.sort(key=..., reverse=True)`
is a stable descending sort, modelled by a stable insertion sort. -/

/-- A numeric embedding vector. -/
abbrev Emb := List ℚ

/-- The similarity oracle standing for `sklearn`'s `cosine_similarity` on a
pair of vectors; `Except.error` models a raised exception. -/
abbrev SimFn := Emb → Emb → Except Unit ℚ

/-- The cross-encoder oracle standing for `self.reranker_model.predict` on a
batch of sentence pairs; `Except.error` models a raised exception. -/
abbrev RerankFn := List (String × String) → Except Unit (List ℚ)

/-- One entry of the `initial_scores` list built by `find_relevant_chunks`:
the Python dict `{'text': ..., 'initial_score': ...}`, to which the rerank
stage may later add a `'rerank_score'` key. -/
structure ScoredChunk where
  text : String
  initial_score : ℚ
  rerank_score : Option ℚ := none
deriving DecidableEq, Repr

/-- Stable insertion step: place `a` before the first element `b` with
`le a b`.  With `le x y` meaning "x may come no later than y", this keeps the
original relative order of elements that compare equal. -/
def stableInsert (le : α → α → Bool) (a : α) : List α → List α
  | [] => [a]
  | b :: bs => if le a b then a :: b :: bs else b :: stableInsert le a bs

/-- Stable sort of a list under `le`, the model of Python `list.sort` (Timsort
is stable; `reverse=True` keeps the original order of items with equal keys). -/
def stableSort (le : α → α → Bool) : List α → List α
  | [] => []
  | a :: as => stableInsert le a (stableSort le as)

/-- The comparison realising `sort(key=lambda x: x['initial_score'], reverse=True)`. -/
def byInitialDesc (a b : ScoredChunk) : Bool := b.initial_score ≤ a.initial_score

/-- The comparison realising `sort(key=lambda x: x['rerank_score'], reverse=True)`
(every chunk reaching this sort carries a rerank score, so the `getD` default
is never consulted there). -/
def byRerankDesc (a b : ScoredChunk) : Bool :=
  b.rerank_score.getD 0 ≤ a.rerank_score.getD 0

/-- The values read by `_get_retrieval_params` from
`retrieval_params.<query_type>`; each key may be absent. -/
structure RetrievalParamsCfg where
  initial_retrieval : Option Nat
  final_retrieval : Option Nat
  similarity_threshold : Option ℚ

/-- The per-facet configuration store: `retrieval_params.<query_type>` may be
absent altogether (`get_config(..., {})` then yields the empty dict). -/
abbrev RetrievalCfg := String → Option RetrievalParamsCfg

/-- The resolved parameters returned by `_get_retrieval_params`. -/
structure RetrievalParams where
  initial_retrieval : Nat
  final_retrieval : Nat
  similarity_threshold : ℚ

/-- `RetrievalModule._get_retrieval_params` (retrieval_module.py:39-53):
look up `retrieval_params.<query_type>` and fill in the documented defaults
`initial_retrieval = 7`, `final_retrieval = 3`, `similarity_threshold = 0.20`. -/
def get_retrieval_params (cfg : RetrievalCfg) (query_type : String) : RetrievalParams :=
  let params := (cfg query_type).getD ⟨none, none, none⟩
  { initial_retrieval := params.initial_retrieval.getD 7
    final_retrieval := params.final_retrieval.getD 3
    similarity_threshold := params.similarity_threshold.getD (1 / 5) }

/-- The `for i, chunk_emb in enumerate(doc_chunk_embeddings)` loop building
`initial_scores` (retrieval_module.py:79-93): skip `None` and all-zero
embeddings, compute the similarity (a raised exception — including an
out-of-range `doc_chunks_text[i]` — is caught, logged and the chunk skipped),
keep the chunk when `sim >= similarity_threshold`. -/
def coarseScores (simFn : SimFn) (threshold : ℚ) (query_embedding : Emb)
    (doc_chunks_text : List String) : List (Option Emb) → Nat → List ScoredChunk
  | [], _ => []
  | chunk_emb :: rest, i =>
    let tail := coarseScores simFn threshold query_embedding doc_chunks_text rest (i + 1)
    match chunk_emb with
    | none => tail
    | some emb =>
      if emb.any (· ≠ 0) then
        match simFn query_embedding emb with
        | .error _ => tail
        | .ok sim =>
          if threshold ≤ sim then
            match doc_chunks_text.get? i with
            | some tx => { text := tx, initial_score := sim } :: tail
            | none => tail
          else tail
      else tail

/-- The coarse stage of `find_relevant_chunks` up to and including
`top_chunks = initial_scores[:initial_retrieval]` (retrieval_module.py:73-97),
with the early `return []` guards folded in: the surviving candidates sorted
by coarse score descending and truncated to `initial_retrieval`. -/
def coarseStage (cfg : RetrievalCfg) (simFn : SimFn) (query_embedding : Option Emb)
    (doc_chunk_embeddings : List (Option Emb)) (doc_chunks_text : List String)
    (query_type : String) : List ScoredChunk :=
  match query_embedding with
  | none => []
  | some q =>
    if q.length = 0 ∨ doc_chunk_embeddings.length = 0 ∨ doc_chunks_text.length = 0 then []
    else
      let params := get_retrieval_params cfg query_type
      (stableSort byInitialDesc
        (coarseScores simFn params.similarity_threshold q doc_chunks_text
          doc_chunk_embeddings 0)).take params.initial_retrieval

/-- `RetrievalModule.find_relevant_chunks` (retrieval_module.py:55-118).
After the coarse stage: return `top_chunks` unchanged when it is empty or no
reranker model is configured; otherwise `predict` on the batched
`[query_type, chunk_text]` pairs, assign the scores (`rerank_scores[i]` raises
`IndexError` past the end of a short score list, caught by the `except` which
returns the coarse order truncated to `final_retrieval`, the first
`len(rerank_scores)` chunks keeping their newly assigned score), re-sort by
rerank score descending and truncate to `final_retrieval`; any exception from
`predict` itself likewise falls back to `top_chunks[:final_retrieval]`. -/
def find_relevant_chunks (cfg : RetrievalCfg) (reranker_model : Option RerankFn)
    (simFn : SimFn) (query_embedding : Option Emb)
    (doc_chunk_embeddings : List (Option Emb)) (doc_chunks_text : List String)
    (query_type : String) : List ScoredChunk :=
  let top_chunks := coarseStage cfg simFn query_embedding doc_chunk_embeddings
    doc_chunks_text query_type
  match reranker_model with
  | none => top_chunks
  | some predict =>
    if top_chunks = [] then top_chunks
    else
      let params := get_retrieval_params cfg query_type
      let sentence_pairs := top_chunks.map (fun chunk => (query_type, chunk.text))
      match predict sentence_pairs with
      | .error _ => top_chunks.take params.final_retrieval
      | .ok rerank_scores =>
        let scored := top_chunks.zipWith
          (fun chunk s => { chunk with rerank_score := some s }) rerank_scores
        if top_chunks.length ≤ rerank_scores.length then
          (stableSort byRerankDesc scored).take params.final_retrieval
        else
          (scored ++ top_chunks.drop rerank_scores.length).take params.final_retrieval

end LekhokAI

namespace LekhokAI

theorem stableInsert_length (le : α → α → Bool) (a : α) (l : List α) :
    (stableInsert le a l).length = l.length + 1 := by
  induction l with
  | nil => rfl
  | cons b bs ih =>
    simp only [stableInsert]
    split
    · simp
    · simp [ih]

theorem stableSort_length (le : α → α → Bool) (l : List α) :
    (stableSort le l).length = l.length := by
  induction l with
  | nil => rfl
  | cons a as ih => simp [stableSort, stableInsert_length, ih]

/-- The coarse stage never yields more than `initial_retrieval` candidates. -/
theorem coarseStage_length_le (cfg : RetrievalCfg) (simFn : SimFn)
    (query_embedding : Option Emb) (doc_chunk_embeddings : List (Option Emb))
    (doc_chunks_text : List String) (query_type : String) :
    (coarseStage cfg simFn query_embedding doc_chunk_embeddings doc_chunks_text
        query_type).length ≤ (get_retrieval_params cfg query_type).initial_retrieval := by
  unfold coarseStage
  cases query_embedding with
  | none => simp
  | some q =>
    by_cases h : q = [] ∨ doc_chunk_embeddings = [] ∨ doc_chunks_text = []
    · simp [h]
    · push_neg at h
      obtain ⟨h1, h2, h3⟩ := h
      simp [h1, h2, h3, List.length_take, stableSort_length]

end LekhokAI

namespace LekhokAI

/-- The per-facet configuration used in counterexamples and witnesses:
`initial_retrieval = 2`, `final_retrieval = 1`, `similarity_threshold = 0`. -/
def cfgTwoOne : RetrievalCfg := fun _ => some ⟨some 2, some 1, some 0⟩

/-- A facet configuration with `final_retrieval > initial_retrieval`. -/
def cfgTwoThree : RetrievalCfg := fun _ => some ⟨some 2, some 3, some 0⟩

/-- A similarity oracle that scores every pair `1` (never raises). -/
def simConstOne : SimFn := fun _ _ => .ok 1

/-- A cross-encoder oracle that raises on every call. -/
def predictAlwaysFails : RerankFn := fun _ => .error ()

/-- C1 (counterexample): with facet configuration `initial_retrieval = 2`,
`final_retrieval = 1` and no reranker model configured, `find_relevant_chunks`
returns 2 chunks, exceeding `final_retrieval`; and a facet configuration with
`final_retrieval = 3 > 2 = initial_retrieval` is accepted as-is, so
`final_retrieval ≤ initial_retrieval` does not hold either. -/
theorem truncation_invariant_counterexample :
    (find_relevant_chunks cfgTwoOne none simConstOne (some [1])
        [some [1], some [1]] ["a", "b"] "topic").length = 2 ∧
      (get_retrieval_params cfgTwoOne "topic").final_retrieval = 1 ∧
      ¬ (get_retrieval_params cfgTwoThree "topic").final_retrieval ≤
          (get_retrieval_params cfgTwoThree "topic").initial_retrieval := by
  refine ⟨by decide, by decide, by decide⟩

/-- C1 (amended): the returned list always has length at most
`initial_retrieval`; when a reranker model is configured the length is also at
most `final_retrieval`; and `final_retrieval ≤ initial_retrieval` holds for
the default parameters (`3 ≤ 7`) used when the facet has no configuration
entry, though it is not enforced for arbitrary facet configurations. -/
theorem find_relevant_chunks_length_bounds (cfg : RetrievalCfg)
    (reranker_model : Option RerankFn) (simFn : SimFn) (query_embedding : Option Emb)
    (doc_chunk_embeddings : List (Option Emb)) (doc_chunks_text : List String)
    (query_type : String) :
    (find_relevant_chunks cfg reranker_model simFn query_embedding
        doc_chunk_embeddings doc_chunks_text query_type).length ≤
      (get_retrieval_params cfg query_type).initial_retrieval ∧
    (reranker_model ≠ none →
      (find_relevant_chunks cfg reranker_model simFn query_embedding
          doc_chunk_embeddings doc_chunks_text query_type).length ≤
        (get_retrieval_params cfg query_type).final_retrieval) ∧
    (cfg query_type = none →
      (get_retrieval_params cfg query_type).final_retrieval ≤
        (get_retrieval_params cfg query_type).initial_retrieval) := by
  have hdef : cfg query_type = none →
      (get_retrieval_params cfg query_type).final_retrieval ≤
        (get_retrieval_params cfg query_type).initial_retrieval := by
    intro h
    simp [get_retrieval_params, h]
  have hT := coarseStage_length_le cfg simFn query_embedding doc_chunk_embeddings
    doc_chunks_text query_type
  unfold find_relevant_chunks
  cases reranker_model with
  | none => exact ⟨hT, by simp, hdef⟩
  | some predict =>
    refine ⟨?_, fun _ => ?_, hdef⟩ <;>
    · simp only []
      split
      · simp_all
      · split
        · simp only [List.length_take, stableSort_length, List.length_zipWith]
          omega
        · split
          · simp only [List.length_take, stableSort_length, List.length_zipWith]
            omega
          · simp only [List.length_take, List.length_append, List.length_zipWith,
              List.length_drop]
            omega

/-- Witness for the amended C1 at a concrete configured-reranker call. -/
theorem find_relevant_chunks_length_bounds_witness :
    (find_relevant_chunks cfgTwoOne (some predictAlwaysFails) simConstOne (some [1])
        [some [1], some [1]] ["a", "b"] "topic").length ≤
      (get_retrieval_params cfgTwoOne "topic").initial_retrieval ∧
    (some predictAlwaysFails ≠ (none : Option RerankFn) →
      (find_relevant_chunks cfgTwoOne (some predictAlwaysFails) simConstOne (some [1])
          [some [1], some [1]] ["a", "b"] "topic").length ≤
        (get_retrieval_params cfgTwoOne "topic").final_retrieval) ∧
    (cfgTwoOne "topic" = none →
      (get_retrieval_params cfgTwoOne "topic").final_retrieval ≤
        (get_retrieval_params cfgTwoOne "topic").initial_retrieval) :=
  find_relevant_chunks_length_bounds cfgTwoOne (some predictAlwaysFails) simConstOne
    (some [1]) [some [1], some [1]] ["a", "b"] "topic"

end LekhokAI

namespace LekhokAI

theorem find_relevant_chunks_of_coarse_nil (cfg : RetrievalCfg)
    (reranker_model : Option RerankFn) (simFn : SimFn) (query_embedding : Option Emb)
    (doc_chunk_embeddings : List (Option Emb)) (doc_chunks_text : List String)
    (query_type : String)
    (h : coarseStage cfg simFn query_embedding doc_chunk_embeddings doc_chunks_text
        query_type = []) :
    find_relevant_chunks cfg reranker_model simFn query_embedding doc_chunk_embeddings
      doc_chunks_text query_type = [] := by
  unfold find_relevant_chunks
  cases reranker_model with
  | none => exact h
  | some predict => simp [h]

/-- C5: if a reranker model is configured but `predict` raises on every call,
`find_relevant_chunks` still returns the coarse-stage top candidates (sorted by
coarse similarity, descending) truncated to `final_retrieval`, and no error
escapes (the embedding is a total function into result lists). -/
theorem rerank_failure_degrades_to_coarse (cfg : RetrievalCfg) (predict : RerankFn)
    (simFn : SimFn) (query_embedding : Option Emb)
    (doc_chunk_embeddings : List (Option Emb)) (doc_chunks_text : List String)
    (query_type : String) (hfail : ∀ pairs, predict pairs = Except.error ()) :
    find_relevant_chunks cfg (some predict) simFn query_embedding doc_chunk_embeddings
        doc_chunks_text query_type =
      (coarseStage cfg simFn query_embedding doc_chunk_embeddings doc_chunks_text
          query_type).take (get_retrieval_params cfg query_type).final_retrieval := by
  by_cases htc : coarseStage cfg simFn query_embedding doc_chunk_embeddings
      doc_chunks_text query_type = []
  · rw [find_relevant_chunks_of_coarse_nil _ _ _ _ _ _ _ htc, htc, List.take_nil]
  · unfold find_relevant_chunks
    simp only [if_neg htc, hfail]

/-- Witness for C5 at a concrete call with an always-raising reranker. -/
theorem rerank_failure_degrades_to_coarse_witness :
    (∀ pairs, predictAlwaysFails pairs = Except.error ()) ∧
      find_relevant_chunks cfgTwoOne (some predictAlwaysFails) simConstOne (some [1])
          [some [1], some [1]] ["a", "b"] "topic" =
        (coarseStage cfgTwoOne simConstOne (some [1]) [some [1], some [1]] ["a", "b"]
            "topic").take (get_retrieval_params cfgTwoOne "topic").final_retrieval :=
  ⟨fun _ => rfl,
    rerank_failure_degrades_to_coarse cfgTwoOne predictAlwaysFails simConstOne (some [1])
      [some [1], some [1]] ["a", "b"] "topic" (fun _ => rfl)⟩

/-- C7: raising the similarity threshold never increases the number of
candidates surviving the coarse filter, for a fixed query embedding, chunk
embeddings, chunk texts and similarity oracle. -/
theorem coarse_filter_threshold_monotone (simFn : SimFn) (query_embedding : Emb)
    (doc_chunks_text : List String) (t1 t2 : ℚ) (h : t1 ≤ t2) :
    ∀ (doc_chunk_embeddings : List (Option Emb)) (i : Nat),
      (coarseScores simFn t2 query_embedding doc_chunks_text doc_chunk_embeddings
          i).length ≤
        (coarseScores simFn t1 query_embedding doc_chunks_text doc_chunk_embeddings
            i).length := by
  intro embs
  induction embs with
  | nil => intro i; simp [coarseScores]
  | cons e rest ih =>
    intro i
    simp only [coarseScores]
    cases e with
    | none => exact ih (i + 1)
    | some emb =>
      cases hany : emb.any (· ≠ 0) with
      | false => simp only [hany, Bool.false_eq_true, if_false]; exact ih (i + 1)
      | true =>
        simp only [hany, if_true]
        cases hsim : simFn query_embedding emb with
        | error e => exact ih (i + 1)
        | ok sim =>
          by_cases h2 : t2 ≤ sim
          · have h1 : t1 ≤ sim := le_trans h h2
            simp only [if_pos h2, if_pos h1]
            cases doc_chunks_text.get? i with
            | none => exact ih (i + 1)
            | some tx => simpa using ih (i + 1)
          · simp only [if_neg h2]
            by_cases h1 : t1 ≤ sim
            · simp only [if_pos h1]
              cases doc_chunks_text.get? i with
              | none => exact ih (i + 1)
              | some tx => exact le_trans (ih (i + 1)) (by simp)
            · simp only [if_neg h1]
              exact ih (i + 1)

/-- Witness for C7 with thresholds `0 ≤ 2` at a concrete coarse pass. -/
theorem coarse_filter_threshold_monotone_witness :
    (0 : ℚ) ≤ 2 ∧
      (coarseScores simConstOne 2 [1] ["a"] [some [1]] 0).length ≤
        (coarseScores simConstOne 0 [1] ["a"] [some [1]] 0).length :=
  ⟨by norm_num,
    coarse_filter_threshold_monotone simConstOne [1] ["a"] 0 2 (by norm_num) [some [1]] 0⟩

/-- C10: a `None` or zero-length query embedding, an empty chunk-embedding
list, or an empty chunk-text list makes `find_relevant_chunks` return `[]`
regardless of the facet configuration, the similarity oracle or the reranker
model. -/
theorem find_relevant_chunks_early_nil (cfg : RetrievalCfg)
    (reranker_model : Option RerankFn) (simFn : SimFn) (query_embedding : Option Emb)
    (doc_chunk_embeddings : List (Option Emb)) (doc_chunks_text : List String)
    (query_type : String)
    (h : query_embedding = none ∨ query_embedding = some [] ∨
      doc_chunk_embeddings = [] ∨ doc_chunks_text = []) :
    find_relevant_chunks cfg reranker_model simFn query_embedding doc_chunk_embeddings
      doc_chunks_text query_type = [] := by
  apply find_relevant_chunks_of_coarse_nil
  rcases h with h | h | h | h
  · subst h; rfl
  · subst h; simp [coarseStage]
  · subst h
    cases query_embedding with
    | none => rfl
    | some q => simp [coarseStage]
  · subst h
    cases query_embedding with
    | none => rfl
    | some q => simp [coarseStage]

/-- Witness for C10 at a concrete call with a `None` query embedding. -/
theorem find_relevant_chunks_early_nil_witness :
    ((none : Option Emb) = none ∨ (none : Option Emb) = some [] ∨
        [some ([1] : Emb)] = ([] : List (Option Emb)) ∨ ["a"] = ([] : List String)) ∧
      find_relevant_chunks cfgTwoOne (some predictAlwaysFails) simConstOne none
        [some [1]] ["a"] "topic" = [] :=
  ⟨Or.inl rfl,
    find_relevant_chunks_early_nil cfgTwoOne (some predictAlwaysFails) simConstOne none
      [some [1]] ["a"] "topic" (Or.inl rfl)⟩

end LekhokAI

namespace LekhokAI

/-! ## Persona Store: `PersonaProcessor` (persona_processor.py)

The file system and the on-disk JSON cache are explicit maps from path
strings; the sentence-transformers encoder is a function parameter
(`none` models a failed `_initialize_embedding_model`).  JSON round-trips
of chunk texts and `ℚ`-valued embedding entries are exact, so
`_save_to_cache` followed by `_load_from_cache` is map update followed by
lookup.  `process_persona` additionally reports how many embedding-model
invocations and how many source-document reads the call performed. -/

/-- Splitting a character list at every occurrence of `sep`
(`str.split(sep)` on single-character separators). -/
def splitOnChar (sep : Char) : List Char → List (List Char)
  | [] => [[]]
  | c :: cs =>
    match splitOnChar sep cs with
    | [] => if c = sep then [[], [c]] else [[c]]
    | h :: t => if c = sep then [] :: h :: t else (c :: h) :: t

/-- `str.startswith`: the candidate is a leading segment of the string. -/
def strStarts (s pre : String) : Bool := pre.data.isPrefixOf s.data

/-- The final path component, `pathlib.PurePath.name` for the paths used here. -/
def pathName (p : String) : String := String.mk ((splitOnChar '/' p.data).getLastD [])

/-- The index of the last `'.'` in a character list (`str.rfind('.')`),
`none` when there is no dot. -/
def lastDotIdx (cs : List Char) : Option Nat :=
  ((List.range cs.length).filter fun i => cs.get? i = some '.').getLast?

/-- `pathlib.PurePath.stem`: the final component without its last suffix;
a suffix only counts when the last dot is neither the first nor past the
penultimate character (`0 < i < len(name) - 1`). -/
def pathStem (p : String) : String :=
  let name := pathName p
  let cs := name.data
  match lastDotIdx cs with
  | some i => if 0 < i ∧ i < cs.length - 1 then String.mk (cs.take i) else name
  | none => name

/-- `PersonaProcessor._get_cache_path` (persona_processor.py:39-50):
`cache_dir / f"{Path(persona_file).stem}_embeddings.json"` (the `mkdir`
side effect is not part of the key computation). -/
def get_cache_path (cache_dir : String) (persona_file : String) : String :=
  cache_dir ++ "/" ++ pathStem persona_file ++ "_embeddings.json"

/-- The path resolution at the top of `process_persona`
(persona_processor.py:131-135): a relative path that does not already start
with the personas directory is joined onto it. -/
def resolve_persona_file (personas_dir persona_file : String) : String :=
  if ¬ strStarts persona_file "/" ∧ ¬ strStarts persona_file personas_dir then
    personas_dir ++ "/" ++ persona_file
  else persona_file

/-- The configuration and external resources a `PersonaProcessor` reads:
`directories.personas`, `directories.cache`, `app.cache_embeddings`, and the
sentence-transformers encoder (`none` = model initialization failed). -/
structure PPEnv where
  personas_dir : String
  cache_dir : String
  cache_embeddings : Bool
  embedding_model : Option (List String → List Emb)

/-- The ambient disk state: persona source documents and cache files. -/
structure PPState where
  files : String → Option String
  cache : String → Option (List String × List Emb)

/-- `chunk_text` run with enough fuel for its terminating configurations;
`process_persona` calls it with the defaults `chunk_size = 700`,
`overlap = 120`, for which `chunkLoop_coverage` shows fuel `length + 1`
always suffices (so the `getD` default is never taken there). -/
def chunkTextRun (text : List Char) (chunk_size overlap : Nat) : List (List Char) :=
  (chunk_text text chunk_size overlap (text.length + 1)).getD []

/-- `PersonaProcessor.process_persona` (persona_processor.py:121-167), with
explicit state passing.  Returns (result, disk state after the call,
number of embedding-model invocations, number of source-document reads).
Cache hit: return the entry verbatim, no read, no embedding call.  Cache
miss: read the document (an unreadable file raises, caught by the outer
`except` → `None`), chunk it with the default parameters, fail on zero
chunks or an uninitialized embedding model, otherwise encode the chunk batch
and, when `app.cache_embeddings` is set, persist to the cache. -/
def process_persona (env : PPEnv) (st : PPState) (persona_file : String) :
    Option (List String × List Emb) × PPState × Nat × Nat :=
  let pf := resolve_persona_file env.personas_dir persona_file
  let cache_path := get_cache_path env.cache_dir pf
  match st.cache cache_path with
  | some cached_data => (some cached_data, st, 0, 0)
  | none =>
    match st.files pf with
    | none => (none, st, 0, 1)
    | some text =>
      let chunks := (chunkTextRun text.data 700 120).map String.mk
      if chunks = [] then (none, st, 0, 1)
      else
        match env.embedding_model with
        | none => (none, st, 0, 1)
        | some encode =>
          let embeddings := encode chunks
          if env.cache_embeddings then
            (some (chunks, embeddings),
              { st with cache := fun p =>
                  if p = cache_path then some (chunks, embeddings) else st.cache p },
              1, 1)
          else (some (chunks, embeddings), st, 1, 1)

end LekhokAI

namespace LekhokAI

theorem str_append_inj_mid (cd sfx a b : String)
    (h : cd ++ a ++ sfx = cd ++ b ++ sfx) : a = b := by
  have hd := congrArg String.data h
  simp only [String.data_append, List.append_assoc] at hd
  apply String.ext
  exact List.append_cancel_right (List.append_cancel_left hd)

/-- C8 (counterexample): two distinct persona document identities whose file
names share a stem — here `alice.txt` and `alice.md` — are mapped by
`_get_cache_path` to the same cache file, so their cached entries collide. -/
theorem cache_key_collision_counterexample :
    get_cache_path "cache" "alice.txt" = get_cache_path "cache" "alice.md" ∧
      ("alice.txt" : String) ≠ "alice.md" :=
  ⟨by decide, by decide⟩

/-- C8 (amended): the cache key depends only on the stem of the persona file
name, so two identities receive distinct cache files whenever their stems
differ; identities sharing a stem (same base name with a different extension
or directory) collide. -/
theorem cache_key_distinct_of_stem_distinct (cache_dir a b : String)
    (h : pathStem a ≠ pathStem b) :
    get_cache_path cache_dir a ≠ get_cache_path cache_dir b := by
  intro heq
  apply h
  have heq2 : cache_dir ++ "/" ++ pathStem a ++ "_embeddings.json" =
      cache_dir ++ "/" ++ pathStem b ++ "_embeddings.json" := heq
  exact str_append_inj_mid (cache_dir ++ "/") "_embeddings.json" _ _ heq2

/-- Witness for the amended C8 at the stems `alice` and `bob`. -/
theorem cache_key_distinct_of_stem_distinct_witness :
    pathStem "alice.txt" ≠ pathStem "bob.txt" ∧
      get_cache_path "cache" "alice.txt" ≠ get_cache_path "cache" "bob.txt" :=
  ⟨by decide, cache_key_distinct_of_stem_distinct "cache" "alice.txt" "bob.txt" (by decide)⟩

end LekhokAI

namespace LekhokAI

/-- A cache hit returns the entry verbatim: no state change, no embedding
call, no source read (persona_processor.py:137-141). -/
theorem process_persona_cache_hit (env : PPEnv) (st : PPState) (persona_file : String)
    (v : List String × List Emb)
    (h : st.cache (get_cache_path env.cache_dir
        (resolve_persona_file env.personas_dir persona_file)) = some v) :
    process_persona env st persona_file = (some v, st, 0, 0) := by
  simp only [process_persona, h]

/-- After a successful `process_persona` call with caching enabled, the cache
holds exactly the returned (chunks, embeddings) pair under the call's key. -/
theorem process_persona_post_cache (env : PPEnv) (st : PPState) (persona_file : String)
    (v : List String × List Emb) (henabled : env.cache_embeddings = true)
    (h1 : (process_persona env st persona_file).1 = some v) :
    ((process_persona env st persona_file).2.1).cache
        (get_cache_path env.cache_dir
          (resolve_persona_file env.personas_dir persona_file)) = some v := by
  simp only [process_persona] at h1 ⊢
  cases hc : st.cache (get_cache_path env.cache_dir
      (resolve_persona_file env.personas_dir persona_file)) with
  | some cached_data =>
    simp only [hc] at h1 ⊢
    simpa using h1
  | none =>
    simp only [hc] at h1 ⊢
    cases hf : st.files (resolve_persona_file env.personas_dir persona_file) with
    | none => simp [hf] at h1
    | some text =>
      simp only [hf] at h1 ⊢
      by_cases hch : (chunkTextRun text.data 700 120).map String.mk = []
      · simp [hch] at h1
      · simp only [if_neg hch] at h1 ⊢
        cases hm : env.embedding_model with
        | none => simp [hm] at h1
        | some encode =>
          simp only [hm, henabled, if_true] at h1 ⊢
          simp only [Option.some.injEq] at h1
          subst h1
          simp

/-- C4: with caching enabled, a second `process_persona` call on the same
identity returns exactly the first call's successful result, changes nothing,
and performs zero embedding-model invocations and zero source-document
reads. -/
theorem process_persona_idempotent_cached (env : PPEnv) (st : PPState)
    (persona_file : String) (v : List String × List Emb)
    (henabled : env.cache_embeddings = true)
    (h1 : (process_persona env st persona_file).1 = some v) :
    process_persona env ((process_persona env st persona_file).2.1) persona_file =
      (some v, (process_persona env st persona_file).2.1, 0, 0) :=
  process_persona_cache_hit env _ persona_file v
    (process_persona_post_cache env st persona_file v henabled h1)

end LekhokAI

namespace LekhokAI

/-- Concrete environment for witnesses: caching enabled, a constant encoder. -/
def envW : PPEnv := ⟨"personas", "cache", true, some fun ts => ts.map fun _ => [1]⟩

/-- Concrete disk state for witnesses: one persona document, empty cache. -/
def stW : PPState :=
  ⟨fun p => if p = "personas/alice.txt" then some "hi" else none, fun _ => none⟩

/-- Witness for C4: loading `alice.txt` twice against `envW`/`stW`. -/
theorem process_persona_idempotent_cached_witness :
    envW.cache_embeddings = true ∧
      (process_persona envW stW "alice.txt").1 = some (["hi"], [[1]]) ∧
      process_persona envW ((process_persona envW stW "alice.txt").2.1) "alice.txt" =
        (some (["hi"], [[1]]), (process_persona envW stW "alice.txt").2.1, 0, 0) :=
  ⟨rfl, by decide,
    process_persona_idempotent_cached envW stW "alice.txt" (["hi"], [[1]]) rfl (by decide)⟩

end LekhokAI

namespace LekhokAI

/-! ## Session Orchestrator: `CharacterBasedAgent` (main_agent.py)

The Session is the triple of mutable agent fields set in `__init__`
(main_agent.py:30-32).  `config_loader.load_character_config` and the value
of `get_config('persona_file')` after it are parameters; the LLM handler is a
parameter that may raise. -/

/-- The Session state of `CharacterBasedAgent`: `current_character`,
`current_persona_chunks`, `current_persona_embeddings`. -/
structure AgentState where
  current_character : Option String
  current_persona_chunks : List String
  current_persona_embeddings : List Emb
deriving DecidableEq, Repr

/-- `CharacterBasedAgent.load_character` (main_agent.py:60-93) with explicit
state passing.  Fails — leaving the Session untouched — when the character
config does not load, no (non-empty) `persona_file` is configured, or
`process_persona` returns `None`; on success replaces all three Session
fields.  Returns (success, Session after, disk state after). -/
def load_character (load_character_config : String → Bool)
    (persona_file_cfg : Option String) (env : PPEnv) (st : AgentState) (pst : PPState)
    (character_name : String) : Bool × AgentState × PPState :=
  if ¬ load_character_config character_name then (false, st, pst)
  else
    match persona_file_cfg with
    | none => (false, st, pst)
    | some persona_file =>
      if persona_file = "" then (false, st, pst)
      else
        let r := process_persona env pst persona_file
        match r.1 with
        | none => (false, st, r.2.1)
        | some result =>
          (true,
            { current_character := some character_name
              current_persona_chunks := result.1
              current_persona_embeddings := result.2 },
            r.2.1)

/-- `not self.current_character`: Python falsiness of the field (``None`` or
the empty string). -/
def charFalsy : Option String → Bool
  | none => true
  | some s => s == ""

/-- The result record of `llm_handler.generate_story_and_image_prompt`. -/
structure LLMResult where
  story : String
  image_prompt : String
  model_name : String
  input_tokens : Nat
  output_tokens : Nat

/-- `RetrievalModule.get_relevant_context` (retrieval_module.py:120-151):
one `find_relevant_chunks` pass per query type, keeping only chunk texts. -/
def get_relevant_context (cfg : RetrievalCfg) (reranker_model : Option RerankFn)
    (simFn : SimFn) (query_text : String) (query_embedding : Option Emb)
    (doc_chunk_embeddings : List (Option Emb)) (doc_chunks_text : List String)
    (query_types : List String) : List (String × List String) :=
  query_types.map fun query_type =>
    (query_type,
      (find_relevant_chunks cfg reranker_model simFn query_embedding
        doc_chunk_embeddings doc_chunks_text query_type).map (·.text))

/-- Dictionary lookup `context.get(key, [])` on the facet → chunk-texts map. -/
def ctxGet (context : List (String × List String)) (key : String) : List String :=
  ((context.find? fun p => p.1 == key).map Prod.snd).getD []

/-- `RetrievalModule.format_context_for_llm` (retrieval_module.py:153-176):
fixed facet order, fixed section labels, empty facets omitted. -/
def format_context_for_llm (context : List (String × List String)) : String :=
  let sections :=
    (if ctxGet context "topic" ≠ [] then
      "Topic-Relevant Information:" :: ctxGet context "topic" else []) ++
    (if ctxGet context "style" ≠ [] then
      "\nStyle Guidelines:" :: ctxGet context "style" else []) ++
    (if ctxGet context "timeline" ≠ [] then
      "\nTimeline Information:" :: ctxGet context "timeline" else [])
  String.intercalate "\n\n" sections

/-- `CharacterBasedAgent.generate_story_and_image` (main_agent.py:107-155).
`get_embeddings` stands for `persona_processor.get_embeddings` (it returns
`None` on any internal failure — subscripting that `None` raises, caught by
the outer `except`); `llm` stands for the LLM handler call, which may raise.
The rows returned by the encoder are never Python `None`, so the
`query_embedding is None` check never fires and is not modelled. -/
def generate_story_and_image (cfg : RetrievalCfg) (reranker_model : Option RerankFn)
    (simFn : SimFn) (get_embeddings : List String → Option (List Emb))
    (llm : String → String → String → String → Except Unit LLMResult)
    (st : AgentState) (story_prompt : String) : String × String × String × Nat × Nat :=
  if charFalsy st.current_character ∨ st.current_persona_chunks.length = 0 ∨
      st.current_persona_embeddings.length = 0 then
    ("Error: No character loaded", "Error: No character loaded", "unknown", 0, 0)
  else
    match (get_embeddings [story_prompt]).bind (·.get? 0) with
    | none => ("Error generating content", "Error generating content", "unknown", 0, 0)
    | some query_embedding =>
      let context := get_relevant_context cfg reranker_model simFn story_prompt
        (some query_embedding) (st.current_persona_embeddings.map some)
        st.current_persona_chunks ["topic", "style", "timeline"]
      let persona_context := format_context_for_llm context
      let image_guidelines := String.intercalate "\n" (ctxGet context "style")
      match llm story_prompt persona_context image_guidelines
          (st.current_character.getD "") with
      | .error _ =>
        ("Error generating content", "Error generating content", "unknown", 0, 0)
      | .ok result =>
        (result.story, result.image_prompt, result.model_name, result.input_tokens,
          result.output_tokens)

end LekhokAI

namespace LekhokAI

/-- C6: `load_character` mutates the Session atomically: on any failure
(config load failure, missing or empty `persona_file`, `process_persona`
failure) the prior Session state is returned untouched and failure reported;
on success the three Session fields are replaced wholesale by the loaded
identity and the (chunks, embeddings) pair that `process_persona` returned. -/
theorem load_character_session_atomic (load_character_config : String → Bool)
    (persona_file_cfg : Option String) (env : PPEnv) (st : AgentState) (pst : PPState)
    (character_name : String) :
    ((load_character load_character_config persona_file_cfg env st pst
        character_name).1 = false →
      (load_character load_character_config persona_file_cfg env st pst
        character_name).2.1 = st) ∧
    ((load_character load_character_config persona_file_cfg env st pst
        character_name).1 = true →
      ∃ persona_file chunks embeddings, persona_file_cfg = some persona_file ∧
        (process_persona env pst persona_file).1 = some (chunks, embeddings) ∧
        (load_character load_character_config persona_file_cfg env st pst
            character_name).2.1 =
          ⟨some character_name, chunks, embeddings⟩) := by
  unfold load_character
  by_cases hcfg : load_character_config character_name
  · simp only [hcfg, not_true, if_neg, ite_false]
    cases persona_file_cfg with
    | none => simp
    | some persona_file =>
      by_cases hempty : persona_file = ""
      · simp [hempty]
      · simp only [if_neg hempty]
        cases hr : (process_persona env pst persona_file).1 with
        | none => simp [hr]
        | some result =>
          simp only [hr]
          refine ⟨by simp, fun _ => ⟨persona_file, result.1, result.2, rfl, ?_, rfl⟩⟩
          simpa using hr
  · simp [hcfg]

/-- Concrete Session for witnesses: a loaded character `bob`. -/
def agentStW : AgentState := ⟨some "bob", ["c"], [[1]]⟩

/-- Witness for C6: a failing load (config refuses to load) leaves the
Session at `agentStW`. -/
theorem load_character_session_atomic_witness :
    (load_character (fun _ => false) none envW agentStW stW "x").1 = false ∧
      (load_character (fun _ => false) none envW agentStW stW "x").2.1 = agentStW :=
  ⟨by decide,
    (load_character_session_atomic (fun _ => false) none envW agentStW stW "x").1
      (by decide)⟩

/-- C9: a query issued while the Session is empty — no character loaded (or a
falsy character name), no chunks, or no embeddings — returns the distinguished
"Error: No character loaded" tuple, for every retrieval configuration, every
encoder and every LLM handler (none of which is consulted), and therefore
never silently returns an ordinary empty context. -/
theorem query_empty_session_reports_error (cfg : RetrievalCfg)
    (reranker_model : Option RerankFn) (simFn : SimFn)
    (get_embeddings : List String → Option (List Emb))
    (llm : String → String → String → String → Except Unit LLMResult)
    (st : AgentState) (story_prompt : String)
    (h : charFalsy st.current_character = true ∨ st.current_persona_chunks = [] ∨
      st.current_persona_embeddings = []) :
    generate_story_and_image cfg reranker_model simFn get_embeddings llm st
        story_prompt =
      ("Error: No character loaded", "Error: No character loaded", "unknown", 0, 0) := by
  unfold generate_story_and_image
  have hguard : charFalsy st.current_character ∨
      st.current_persona_chunks.length = 0 ∨
      st.current_persona_embeddings.length = 0 := by
    rcases h with h | h | h
    · exact Or.inl h
    · exact Or.inr (Or.inl (by simp [h]))
    · exact Or.inr (Or.inr (by simp [h]))
  rw [if_pos hguard]

/-- Witness for C9: a query against the fresh, never-loaded Session. -/
theorem query_empty_session_reports_error_witness :
    (charFalsy (none : Option String) = true ∨ (["c"] : List String) = [] ∨
        ([[1]] : List Emb) = []) ∧
      generate_story_and_image cfgTwoOne none simConstOne (fun _ => none)
          (fun _ _ _ _ => Except.error ()) ⟨none, ["c"], [[1]]⟩ "hello" =
        ("Error: No character loaded", "Error: No character loaded", "unknown", 0, 0) :=
  ⟨Or.inl rfl,
    query_empty_session_reports_error cfgTwoOne none simConstOne (fun _ => none)
      (fun _ _ _ _ => Except.error ()) ⟨none, ["c"], [[1]]⟩ "hello" (Or.inl rfl)⟩

end LekhokAI
